import Mathlib

/-!
Verification of the `Service` worker abstraction and the capture pipeline of
`services.py` / `face_cap.py`.

The pure helpers (`scale_bounding_box`, `bounding_extent_to_corners`,
`Photographer._make_filename`, the color blend used by `Animator.process`)
are embedded as Lean functions; the `Service` class (an unbounded FIFO
queue drained by a single consumer thread) is embedded as a labelled
transition system on an explicit `ServiceState`.
-/

/-- Embedding of `scale_bounding_box(bounding_box, scale_x, scale_y)`
(services.py line 49): componentwise scaling of an `(x, y, w, h)` box,
widths by `scale_x` and heights by `scale_y`. -/
def scale_bounding_box {α : Type} [Mul α] (bounding_box : α × α × α × α)
    (scale_x scale_y : α) : α × α × α × α :=
  (bounding_box.1 * scale_x, bounding_box.2.1 * scale_y,
   bounding_box.2.2.1 * scale_x, bounding_box.2.2.2 * scale_y)

/-- Embedding of `bounding_extent_to_corners(bounding_box, image_size)`
(services.py line 54): converts `(x, y, width, height)` to
`(left, upper, right, lower)`.  The `image_size` argument is accepted but,
exactly as in the source, never used. -/
def bounding_extent_to_corners {α : Type} [Add α] (bounding_box : α × α × α × α)
    (image_size : α × α) : α × α × α × α :=
  let x := bounding_box.1
  let y := bounding_box.2.1
  let width := bounding_box.2.2.1
  let height := bounding_box.2.2.2
  let left := x
  let upper := y
  let right := x + width
  let lower := y + height
  (left, upper, right, lower)

/-- Model of `os.path.expanduser`: a path starting with `~` has the tilde
replaced by the (environment-supplied) home directory, passed here as an
explicit argument; every other path is returned unchanged.  The filenames
built by this program never start with `~`, so only the identity branch is
exercised. -/
def expanduser (home path : String) : String :=
  if path.data.head? = some '~' then home ++ String.mk (path.data.drop 1) else path

/-- Embedding of `Photographer._make_filename(timestamp, suffix)`
(services.py lines 127-129): `'%s/%s_%s.%s' % (folder, timestamp, suffix,
format)` when the suffix is non-empty, `'%s/%s%s.%s'` otherwise, then
`os.path.expanduser` on the result. -/
def Photographer.make_filename (home folder format timestamp suffix : String) :
    String :=
  expanduser home
    (if suffix.length > 0 then
      folder ++ "/" ++ timestamp ++ "_" ++ suffix ++ "." ++ format
     else
      folder ++ "/" ++ timestamp ++ suffix ++ "." ++ format)

/-- Modelled from the spec: `aiy.leds.Color.blend` is imported from the AIY
hardware library, which is not part of this repository's sources; the spec
defines it as component-wise linear interpolation
`joy*(1-score) + sad*score`. -/
def Color.blend (a b : ℚ × ℚ × ℚ) (score : ℚ) : ℚ × ℚ × ℚ :=
  (a.1 * (1 - score) + b.1 * score,
   a.2.1 * (1 - score) + b.2.1 * score,
   a.2.2 * (1 - score) + b.2.2 * score)

/-- `JOY_COLOR = (255, 70, 0)` (services.py line 16). -/
def JOY_COLOR : ℚ × ℚ × ℚ := (255, 70, 0)

/-- `SAD_COLOR = (0, 0, 64)` (services.py line 17). -/
def SAD_COLOR : ℚ × ℚ × ℚ := (0, 0, 64)

/-- The LED update issued by one `Animator.process` call: either
`Leds.rgb_on(color)` or `Leds.rgb_off()`. -/
inductive LedCommand where
  | rgbOn (color : ℚ × ℚ × ℚ)
  | rgbOff
deriving DecidableEq

/-- Embedding of `Animator.process(joy_score)` (services.py lines 192-196):
for a positive score the LEDs are set to the blend of `JOY_COLOR` and
`SAD_COLOR` at that score, otherwise they are switched off. -/
def Animator.process (joy_score : ℚ) : LedCommand :=
  if joy_score > 0 then
    LedCommand.rgbOn (Color.blend JOY_COLOR SAD_COLOR joy_score)
  else
    LedCommand.rgbOff

/-- C8: for all reals, `scale_bounding_box((x,y,w,h), sx, sy)` equals
`(x*sx, y*sy, w*sx, h*sy)`. -/
theorem scale_bounding_box_linear (x y w h sx sy : ℝ) :
    scale_bounding_box (x, y, w, h) sx sy = (x * sx, y * sy, w * sx, h * sy) :=
  rfl

/-- C9: `bounding_extent_to_corners` maps `(x,y,w,h)` to `(x, y, x+w, y+h)`
and its result never depends on the `image_size` argument, so corners are
never clamped to the image bounds. -/
theorem bounding_extent_to_corners_spec :
    (∀ (x y w h : ℝ) (image_size : ℝ × ℝ),
        bounding_extent_to_corners (x, y, w, h) image_size = (x, y, x + w, y + h))
    ∧ ∀ (bb : ℝ × ℝ × ℝ × ℝ) (s₁ s₂ : ℝ × ℝ),
        bounding_extent_to_corners bb s₁ = bounding_extent_to_corners bb s₂ :=
  ⟨fun _ _ _ _ _ => rfl, fun _ _ _ => rfl⟩

/-- C7: the filename convention is
`"<folder>/<timestamp>[_<suffix>].<format>"`: with folder `"./captures"`,
format `"jpeg"` and timestamp `"2024-01-01_00.00.00"`, the original path is
`"./captures/2024-01-01_00.00.00.jpeg"` and the cropped path is
`"./captures/2024-01-01_00.00.00_cropped.jpeg"`, whatever the home
directory. -/
theorem make_filename_scenario (home : String) :
    Photographer.make_filename home "./captures" "jpeg" "2024-01-01_00.00.00" ""
      = "./captures/2024-01-01_00.00.00.jpeg"
    ∧ Photographer.make_filename home "./captures" "jpeg" "2024-01-01_00.00.00" "cropped"
      = "./captures/2024-01-01_00.00.00_cropped.jpeg" := by
  constructor <;> · simp only [Photographer.make_filename, expanduser]; rfl

/-- C6: the blend is the identity on `joy` at score 0 and on `sad` at
score 1; it is component-wise linear in the score (so in particular affine,
hence monotone in each component, increasing or decreasing according to the
sign of `sad - joy`); and `Animator.process` forces the LEDs off for every
score `≤ 0`, regardless of the blend. -/
theorem animator_blend_spec :
    (∀ joy sad : ℚ × ℚ × ℚ, Color.blend joy sad 0 = joy ∧ Color.blend joy sad 1 = sad)
    ∧ (∀ (joy sad : ℚ × ℚ × ℚ) (s t : ℚ),
        (Color.blend joy sad t).1 - (Color.blend joy sad s).1 = (t - s) * (sad.1 - joy.1)
        ∧ (Color.blend joy sad t).2.1 - (Color.blend joy sad s).2.1 = (t - s) * (sad.2.1 - joy.2.1)
        ∧ (Color.blend joy sad t).2.2 - (Color.blend joy sad s).2.2 = (t - s) * (sad.2.2 - joy.2.2))
    ∧ (∀ (joy sad : ℚ × ℚ × ℚ) (s t : ℚ), s ≤ t → joy.1 ≤ sad.1 →
        (Color.blend joy sad s).1 ≤ (Color.blend joy sad t).1)
    ∧ ∀ joy_score : ℚ, joy_score ≤ 0 → Animator.process joy_score = LedCommand.rgbOff := by
  refine ⟨fun joy sad => ⟨?_, ?_⟩,
    fun joy sad s t =>
      ⟨by simp only [Color.blend]; ring, by simp only [Color.blend]; ring,
       by simp only [Color.blend]; ring⟩,
    fun joy sad s t hst hjs => ?_, fun joy_score h => ?_⟩
  · show (_, _, _) = joy
    obtain ⟨j1, j2, j3⟩ := joy
    simp [Color.blend]
  · show (_, _, _) = sad
    obtain ⟨s1, s2, s3⟩ := sad
    simp [Color.blend]
  · have : (Color.blend joy sad t).1 - (Color.blend joy sad s).1 = (t - s) * (sad.1 - joy.1) := by
      simp only [Color.blend]; ring
    nlinarith [this]
  · simp [Animator.process, not_lt.mpr h]

/-- C6 witness: at the concrete score `-1/2` the LEDs are off, and the
monotonicity clause applies at `joy = SAD_COLOR`, `sad = JOY_COLOR`
(so that the first components satisfy `0 ≤ 255`), scores `0 ≤ 1/2`. -/
theorem animator_blend_spec_witness :
    Animator.process (-1/2) = LedCommand.rgbOff
    ∧ (Color.blend SAD_COLOR JOY_COLOR 0).1 ≤ (Color.blend SAD_COLOR JOY_COLOR (1/2)).1 :=
  ⟨animator_blend_spec.2.2.2 (-1/2) (by norm_num),
   animator_blend_spec.2.2.1 SAD_COLOR JOY_COLOR 0 (1/2) (by norm_num)
     (by norm_num [SAD_COLOR, JOY_COLOR])⟩

/-- One cached detection, as consumed by `Photographer.process`: a
`bounding_box` in inference-frame units and a `joy_score`. -/
structure Face where
  bounding_box : ℚ × ℚ × ℚ × ℚ
  joy_score : ℚ
deriving DecidableEq

/-- One file written by the capture path of `Photographer.process`: the
original still, or a cropped still carrying the corners that were handed to
`image.crop`. -/
inductive Artifact where
  | original (filename : String)
  | cropped (filename : String) (corners : ℚ × ℚ × ℚ × ℚ)
deriving DecidableEq

/-- Embedding of the capture branch of `Photographer.process(message)`
(services.py lines 147-176), as the list of files it writes in order.  The
original is always saved; when the cached face list is non-empty, the loop
`for face in faces` rebinds `image2 = image.crop(corners)` on every
iteration and the single `image2.save(filename2)` after the loop persists
only the crop of the last face (the `image.save(filename1)` line for the
annotated overlay is commented out in the source and writes nothing). -/
def Photographer.capture (home folder format timestamp : String)
    (faces_cache : List Face × (ℚ × ℚ)) (image_w image_h : ℚ) : List Artifact :=
  let filename := Photographer.make_filename home folder format timestamp ""
  let faces := faces_cache.1
  let width := faces_cache.2.1
  let height := faces_cache.2.2
  if faces.isEmpty then
    [Artifact.original filename]
  else
    let filename2 := Photographer.make_filename home folder format timestamp "cropped"
    let scale_x := image_w / width
    let scale_y := image_h / height
    let crops := faces.map fun face =>
      bounding_extent_to_corners (scale_bounding_box face.bounding_box scale_x scale_y)
        (image_w, image_h)
    match crops.getLast? with
    | some corners => [Artifact.original filename, Artifact.cropped filename2 corners]
    | none => [Artifact.original filename]

/-- The pair `(image.width / width, image.height / height)` computed at
services.py line 168. -/
def Photographer.scale_factors (image_w image_h width height : ℚ) : ℚ × ℚ :=
  (image_w / width, image_h / height)

/-- C4 (amended): in the end-to-end scenario with one cached detection
`bbox = (10,10,50,50)`, inference geometry `(320,240)` and capture
resolution `820x616`, the scale factors are
`(820/320, 616/240) = (2.5625, 77/30)` (derived as
image dimension over inference dimension), the crop corners of the scaled
box are `(25.625, 77/3, 153.75, 154)`, and exactly one original and one
cropped file are written. -/
theorem photographer_capture_scenario (home timestamp : String) :
    Photographer.scale_factors 820 616 320 240 = (41/16, 77/30)
    ∧ Photographer.capture home "./captures" "jpeg" timestamp
        ([⟨(10, 10, 50, 50), 9/10⟩], (320, 240)) 820 616 =
      [Artifact.original (Photographer.make_filename home "./captures" "jpeg" timestamp ""),
       Artifact.cropped (Photographer.make_filename home "./captures" "jpeg" timestamp "cropped")
         (205/8, 77/3, 615/4, 154)] := by
  constructor
  · norm_num [Photographer.scale_factors]
  · simp only [Photographer.capture, scale_bounding_box, bounding_extent_to_corners,
      List.map_cons, List.map_nil, List.getLast?, List.isEmpty_cons]
    norm_num

/-- C4 counterexample: the second scale factor is `77/30 = 2.5666...`, not
`2.5667`, and the crop corners of the scenario's scaled box are
`(25.625, 25.666..., 153.75, 154)`, not `(25.6, 25.6, 153.75, 153.75)`. -/
theorem photographer_capture_scenario_ne :
    (Photographer.scale_factors 820 616 320 240).2 ≠ 25667/10000
    ∧ bounding_extent_to_corners
        (scale_bounding_box ((10 : ℚ), 10, 50, 50) (820/320) (616/240)) (820, 616)
      ≠ (128/5, 128/5, 615/4, 615/4) := by
  constructor <;>
    norm_num [Photographer.scale_factors, scale_bounding_box, bounding_extent_to_corners,
      Prod.ext_iff]

/-- C5 (amended): on a capture processed with a non-empty cached detection
set, every detection's bounding box is scaled by `(sx, sy)` and converted
to corner coordinates, but only a single cropped file is persisted besides
the original — the crop of the LAST cached detection — because the save
call sits after the per-detection loop (so `n` detections yield 2 files,
not `n + 1`). -/
theorem photographer_crops_last_face (home folder format timestamp : String)
    (faces : List Face) (width height image_w image_h : ℚ) (hne : faces ≠ []) :
    Photographer.capture home folder format timestamp (faces, (width, height)) image_w image_h =
      [Artifact.original (Photographer.make_filename home folder format timestamp ""),
       Artifact.cropped (Photographer.make_filename home folder format timestamp "cropped")
         (bounding_extent_to_corners
           (scale_bounding_box (faces.getLast hne).bounding_box
             (image_w / width) (image_h / height))
           (image_w, image_h))] := by
  simp only [Photographer.capture]
  rw [if_neg (by simpa [List.isEmpty_iff] using hne)]
  rw [List.getLast?_map, List.getLast?_eq_getLast faces hne]
  simp

/-- C5 witness: the amended theorem applied to two concrete cached faces;
the persisted crop is that of the second (last) face. -/
theorem photographer_crops_last_face_witness :
    Photographer.capture "" "./captures" "jpeg" "t"
        ([⟨(10, 10, 50, 50), 9/10⟩, ⟨(0, 0, 10, 10), 1/2⟩], (320, 240)) 820 616 =
      [Artifact.original (Photographer.make_filename "" "./captures" "jpeg" "t" ""),
       Artifact.cropped (Photographer.make_filename "" "./captures" "jpeg" "t" "cropped")
         (bounding_extent_to_corners
           (scale_bounding_box ((0 : ℚ), 0, 10, 10) (820 / 320) (616 / 240))
           (820, 616))] :=
  photographer_crops_last_face "" "./captures" "jpeg" "t"
    [⟨(10, 10, 50, 50), 9/10⟩, ⟨(0, 0, 10, 10), 1/2⟩] 320 240 820 616 (by simp)

/-- C5 counterexample: with two cached detections the capture path writes
2 files (one original, one cropped), not the `1 + 2` files the claim
demands. -/
theorem photographer_two_faces_single_crop :
    (Photographer.capture "" "./captures" "jpeg" "t"
        ([⟨(10, 10, 50, 50), 9/10⟩, ⟨(0, 0, 10, 10), 1/2⟩], (320, 240)) 820 616).length = 2
    ∧ (2 : ℕ) ≠ 1 + 2 := by
  exact ⟨rfl, by decide⟩

/-- State of one `Service` (services.py lines 63-96): the FIFO `_requests`
queue (a `None` entry is the termination sentinel enqueued by `close()` or
by `submit(None)`), the requests `process` has been invoked on in order,
the ghost list of all non-sentinel requests ever submitted in order,
whether the `shutdown` hook has run, and whether the consumer thread's
`_run` loop has exited. -/
structure ServiceState (α : Type) where
  queue : List (Option α)
  processed : List α
  submitted : List α
  shutdownCalled : Bool
  exited : Bool
deriving DecidableEq

/-- The state right after `Service.__init__`: empty queue, consumer thread
running. -/
def initService (α : Type) : ServiceState α :=
  ⟨[], [], [], false, false⟩

/-- One atomic transition of a `Service`, parametrized by which requests
make `process` raise.  `submit` and `submitNone` append to the queue
(`queue.Queue.put`) and are always enabled — callers are never blocked and
never signalled.  The three `consume` transitions embed one iteration of
`_run` (services.py lines 70-77): dequeue the head; on a request, invoke
`process` on it, the loop dying without the shutdown hook if `process`
raises; on the `None` sentinel, invoke `shutdown` and break. -/
inductive Step {α : Type} (raises : α → Bool) :
    ServiceState α → ServiceState α → Prop where
  | submit (s : ServiceState α) (r : α) :
      Step raises s { s with queue := s.queue ++ [some r], submitted := s.submitted ++ [r] }
  | submitNone (s : ServiceState α) :
      Step raises s { s with queue := s.queue ++ [none] }
  | consume (s : ServiceState α) (r : α) (rest : List (Option α))
      (hex : s.exited = false) (hq : s.queue = some r :: rest) (hr : raises r = false) :
      Step raises s { s with queue := rest, processed := s.processed ++ [r] }
  | consumeRaise (s : ServiceState α) (r : α) (rest : List (Option α))
      (hex : s.exited = false) (hq : s.queue = some r :: rest) (hr : raises r = true) :
      Step raises s { s with queue := rest, processed := s.processed ++ [r], exited := true }
  | consumeSentinel (s : ServiceState α) (rest : List (Option α))
      (hex : s.exited = false) (hq : s.queue = none :: rest) :
      Step raises s { s with queue := rest, shutdownCalled := true, exited := true }

/-- Once the consumer has exited, a single step can neither process another
request nor restart the consumer. -/
theorem exited_step_fixed {α : Type} {raises : α → Bool} {s t : ServiceState α}
    (hstep : Step raises s t) (hex : s.exited = true) :
    t.processed = s.processed ∧ t.exited = true := by
  cases hstep <;> simp_all

/-- Once the consumer has exited, no sequence of steps processes another
request or restarts the consumer. -/
theorem exited_reach_fixed {α : Type} {raises : α → Bool} {s t : ServiceState α}
    (h : Relation.ReflTransGen (Step raises) s t) (hex : s.exited = true) :
    t.processed = s.processed ∧ t.exited = true := by
  induction h with
  | refl => exact ⟨rfl, hex⟩
  | tail hab hbc ih =>
      obtain ⟨hp, he⟩ := ih
      obtain ⟨hp2, he2⟩ := exited_step_fixed hbc he
      exact ⟨hp2.trans hp, he2⟩

/-- A live consumer can drain any block of non-raising requests at the
front of its queue, processing them in order. -/
theorem consume_prefix {α : Type} (raises : α → Bool) (pre : List α) :
    ∀ (s : ServiceState α) (rest : List (Option α)),
      s.exited = false → s.queue = pre.map some ++ rest →
      (∀ r ∈ pre, raises r = false) →
      ∃ s', Relation.ReflTransGen (Step raises) s s' ∧
        s' = { s with queue := rest, processed := s.processed ++ pre } := by
  induction pre with
  | nil =>
      intro s rest hex hq _
      refine ⟨s, Relation.ReflTransGen.refl, ?_⟩
      cases s
      simp_all
  | cons r pre ih =>
      intro s rest hex hq hpre
      have hr : raises r = false := hpre r (List.mem_cons_self r pre)
      have hstep : Step raises s
          { s with queue := pre.map some ++ rest, processed := s.processed ++ [r] } :=
        Step.consume s r (pre.map some ++ rest) hex (by simpa using hq) hr
      obtain ⟨s', hreach, hs'⟩ :=
        ih { s with queue := pre.map some ++ rest, processed := s.processed ++ [r] } rest
          hex rfl (fun x hx => hpre x (List.mem_cons_of_mem r hx))
      refine ⟨s', Relation.ReflTransGen.head hstep hreach, ?_⟩
      rw [hs']
      simp

/-- C1: `close()` enqueues the `None` sentinel behind the already-pending
requests and joins the consumer thread: from any live state whose queue is
the pending (non-raising) requests followed by that sentinel, the consumer
reaches a state — and only then does `close()` unblock — in which it has
processed every pending request in order, invoked the `shutdown` hook, and
exited; everything enqueued after the sentinel is still in the queue
(the sentinel is the last item dequeued), and from that point no sequence
of steps ever processes another request. -/
theorem Service_close_spec {α : Type} (raises : α → Bool) (s : ServiceState α)
    (pre : List α) (post : List (Option α))
    (hex : s.exited = false) (hq : s.queue = pre.map some ++ none :: post)
    (hpre : ∀ r ∈ pre, raises r = false) :
    ∃ s', Relation.ReflTransGen (Step raises) s s' ∧ s'.exited = true ∧
      s'.shutdownCalled = true ∧ s'.processed = s.processed ++ pre ∧
      s'.queue = post ∧
      ∀ t, Relation.ReflTransGen (Step raises) s' t →
        t.processed = s'.processed ∧ t.exited = true := by
  obtain ⟨s1, hreach, hs1⟩ := consume_prefix raises pre s (none :: post) hex hq hpre
  have hex1 : s1.exited = false := by rw [hs1]; exact hex
  have hq1 : s1.queue = none :: post := by rw [hs1]
  have hstep : Step raises s1
      { s1 with queue := post, shutdownCalled := true, exited := true } :=
    Step.consumeSentinel s1 post hex1 hq1
  refine ⟨_, hreach.trans (Relation.ReflTransGen.single hstep), rfl, rfl, ?_, rfl, ?_⟩
  · show s1.processed = s.processed ++ pre
    rw [hs1]
  · intro t ht
    exact exited_reach_fixed ht rfl

/-- C1 witness: a `Service` over `ℕ` with one pending request `7` in front
of the sentinel processes it, shuts down, and exits. -/
theorem Service_close_spec_witness :
    ∃ s', Relation.ReflTransGen (Step (fun _ : ℕ => false))
        ⟨[some 7, none], [], [7], false, false⟩ s' ∧ s'.exited = true ∧
      s'.shutdownCalled = true ∧ s'.processed = [7] ∧ s'.queue = [] ∧
      ∀ t, Relation.ReflTransGen (Step (fun _ : ℕ => false)) s' t →
        t.processed = s'.processed ∧ t.exited = true :=
  Service_close_spec (fun _ => false) ⟨[some 7, none], [], [7], false, false⟩
    [7] [] rfl rfl (fun _ _ => rfl)

/-- C2: in every state reachable from a fresh `Service` — under arbitrary
interleavings of submissions and consumer steps, including a consumer that
stays delayed for any number of submissions — the submitted requests are
exactly the processed requests followed by the still-queued ones, in
submission order: `process` observes requests in FIFO order and no
submitted request is ever dropped from the queue. -/
theorem Service_fifo_no_loss {α : Type} (raises : α → Bool) (s : ServiceState α)
    (h : Relation.ReflTransGen (Step raises) (initService α) s) :
    s.submitted = s.processed ++ s.queue.filterMap id := by
  induction h with
  | refl => rfl
  | tail hab hbc ih =>
      cases hbc with
      | submit r => simp_all [List.filterMap_append]
      | submitNone => simp_all [List.filterMap_append]
      | consume r rest hex hq hr => simp_all
      | consumeRaise r rest hex hq hr => simp_all
      | consumeSentinel rest hex hq => simp_all

/-- C2 witness: the invariant at the concrete reachable state obtained by
submitting `1` then `2` and letting the consumer process only `1`. -/
theorem Service_fifo_no_loss_witness :
    (⟨[some 2], [1], [1, 2], false, false⟩ : ServiceState ℕ).submitted =
      (⟨[some 2], [1], [1, 2], false, false⟩ : ServiceState ℕ).processed ++
        (⟨[some 2], [1], [1, 2], false, false⟩ : ServiceState ℕ).queue.filterMap id := by
  have h1 : Step (fun _ : ℕ => false) (initService ℕ) ⟨[some 1], [], [1], false, false⟩ :=
    Step.submit (initService ℕ) 1
  have h2 : Step (fun _ : ℕ => false) ⟨[some 1], [], [1], false, false⟩
      ⟨[some 1, some 2], [], [1, 2], false, false⟩ :=
    Step.submit ⟨[some 1], [], [1], false, false⟩ 2
  have h3 : Step (fun _ : ℕ => false) ⟨[some 1, some 2], [], [1, 2], false, false⟩
      ⟨[some 2], [1], [1, 2], false, false⟩ :=
    Step.consume _ 1 [some 2] rfl rfl rfl
  exact Service_fifo_no_loss (fun _ => false) _
    (Relation.ReflTransGen.head h1
      (Relation.ReflTransGen.head h2 (Relation.ReflTransGen.single h3)))

/-- C3: when `process` raises on request `r`, the framework does not catch
it: the consumer processes the earlier requests and `r` itself, then the
loop exits without running the `shutdown` hook; every request still queued
behind `r` (or submitted later) is never processed, and submission — which
is how callers interact with the `Service` — still succeeds normally, so
no signal reaches the submitting caller. -/
theorem Service_process_error_stalls {α : Type} (raises : α → Bool)
    (s : ServiceState α) (pre : List α) (r : α) (post : List (Option α))
    (hex : s.exited = false) (hq : s.queue = pre.map some ++ some r :: post)
    (hpre : ∀ x ∈ pre, raises x = false) (hr : raises r = true) :
    ∃ s', Relation.ReflTransGen (Step raises) s s' ∧ s'.exited = true ∧
      s'.shutdownCalled = s.shutdownCalled ∧
      s'.processed = s.processed ++ pre ++ [r] ∧ s'.queue = post ∧
      (∀ t, Relation.ReflTransGen (Step raises) s' t →
        t.processed = s'.processed) ∧
      ∀ x : α, Step raises s'
        { s' with queue := s'.queue ++ [some x], submitted := s'.submitted ++ [x] } := by
  obtain ⟨s1, hreach, hs1⟩ := consume_prefix raises pre s (some r :: post) hex hq hpre
  have hex1 : s1.exited = false := by rw [hs1]; exact hex
  have hq1 : s1.queue = some r :: post := by rw [hs1]
  have hstep : Step raises s1
      { s1 with queue := post, processed := s1.processed ++ [r], exited := true } :=
    Step.consumeRaise s1 r post hex1 hq1 hr
  refine ⟨_, hreach.trans (Relation.ReflTransGen.single hstep), rfl, ?_, ?_, rfl, ?_, ?_⟩
  · show s1.shutdownCalled = s.shutdownCalled
    rw [hs1]
  · show s1.processed ++ [r] = s.processed ++ pre ++ [r]
    rw [hs1]
  · intro t ht
    exact (exited_reach_fixed ht rfl).1
  · intro x
    exact Step.submit _ x

/-- C3 witness: with `process` raising exactly on `3`, a queue holding
`1, 3, 9` processes `1` and `3`, the consumer dies without shutdown, and
`9` is stranded. -/
theorem Service_process_error_stalls_witness :
    ∃ s', Relation.ReflTransGen (Step (fun n : ℕ => n == 3))
        ⟨[some 1, some 3, some 9], [], [1, 3, 9], false, false⟩ s' ∧
      s'.exited = true ∧ s'.shutdownCalled = false ∧
      s'.processed = [1, 3] ∧ s'.queue = [some 9] ∧
      (∀ t, Relation.ReflTransGen (Step (fun n : ℕ => n == 3)) s' t →
        t.processed = s'.processed) ∧
      ∀ x : ℕ, Step (fun n : ℕ => n == 3) s'
        { s' with queue := s'.queue ++ [some x], submitted := s'.submitted ++ [x] } :=
  Service_process_error_stalls (fun n : ℕ => n == 3)
    ⟨[some 1, some 3, some 9], [], [1, 3, 9], false, false⟩
    [1] 3 [some 9] rfl rfl (by decide) rfl

/-- C10: submitting the value `None` through the public `submit()` is a
single always-enabled queue append that leaves the consumer state
untouched — the caller is not blocked, unlike `close()` — and the `None`
then acts as the very termination sentinel of the close path: once the
consumer reaches it, the `shutdown` hook has run, the loop has exited, and
anything enqueued after that `None` is never processed. -/
theorem Service_submit_none_spec {α : Type} (raises : α → Bool)
    (s : ServiceState α) (pre : List α) (post : List (Option α))
    (hex : s.exited = false) (hq : s.queue = pre.map some ++ none :: post)
    (hpre : ∀ r ∈ pre, raises r = false) :
    (∀ u : ServiceState α,
      Step raises u { u with queue := u.queue ++ [none] } ∧
      ({ u with queue := u.queue ++ [none] } : ServiceState α).exited = u.exited) ∧
    ∃ s', Relation.ReflTransGen (Step raises) s s' ∧ s'.exited = true ∧
      s'.shutdownCalled = true ∧ s'.processed = s.processed ++ pre ∧
      s'.queue = post ∧
      ∀ t, Relation.ReflTransGen (Step raises) s' t →
        t.processed = s'.processed := by
  refine ⟨fun u => ⟨Step.submitNone u, rfl⟩, ?_⟩
  obtain ⟨s1, hreach, hs1⟩ := consume_prefix raises pre s (none :: post) hex hq hpre
  have hex1 : s1.exited = false := by rw [hs1]; exact hex
  have hq1 : s1.queue = none :: post := by rw [hs1]
  have hstep : Step raises s1
      { s1 with queue := post, shutdownCalled := true, exited := true } :=
    Step.consumeSentinel s1 post hex1 hq1
  refine ⟨_, hreach.trans (Relation.ReflTransGen.single hstep), rfl, rfl, ?_, rfl, ?_⟩
  · show s1.processed = s.processed ++ pre
    rw [hs1]
  · intro t ht
    exact (exited_reach_fixed ht rfl).1

/-- C10 witness: a queue holding request `5`, then the user-submitted
`None`, then request `9`: the consumer processes `5`, shuts down and
exits, and `9` is never processed. -/
theorem Service_submit_none_spec_witness :
    (∀ u : ServiceState ℕ,
      Step (fun _ : ℕ => false) u { u with queue := u.queue ++ [none] } ∧
      ({ u with queue := u.queue ++ [none] } : ServiceState ℕ).exited = u.exited) ∧
    ∃ s', Relation.ReflTransGen (Step (fun _ : ℕ => false))
        ⟨[some 5, none, some 9], [], [5, 9], false, false⟩ s' ∧
      s'.exited = true ∧ s'.shutdownCalled = true ∧
      s'.processed = [5] ∧ s'.queue = [some 9] ∧
      ∀ t, Relation.ReflTransGen (Step (fun _ : ℕ => false)) s' t →
        t.processed = s'.processed :=
  Service_submit_none_spec (fun _ => false)
    ⟨[some 5, none, some 9], [], [5, 9], false, false⟩
    [5] [some 9] rfl rfl (fun _ _ => rfl)
